import Mathlib

/-
Verification development for the keyboard shortcut resolution and modal
action-dispatch engine of the alatty terminal emulator (alatty/keys.py and
the dispatch portion of alatty/boss.py).

The Python source is shallowly embedded: dicts become association lists,
object mutation becomes explicit state passing, and the external
collaborators (the boss's `combine`, `is_modifier_key`, the active window,
the capability scopes) become explicit environment records.  The embedded
functions keep the names of the Python functions they translate.
-/

set_option autoImplicit false

/- Modifier bit masks, from alatty.fast_data_types (GLFW).  The concrete
bit values are irrelevant to the engine; only distinctness and the SHIFT
bit are ever used. -/

def GLFW_MOD_SHIFT : Nat := 1

def GLFW_MOD_CONTROL : Nat := 2

def GLFW_MOD_ALT : Nat := 4

def GLFW_MOD_SUPER : Nat := 8

def GLFW_MOD_HYPER : Nat := 16

def GLFW_MOD_META : Nat := 32

/-- Translation of `mod_mask` in keys.py: the OR of the six recognized
modifier bits. -/
def mod_mask : Nat :=
  GLFW_MOD_ALT ||| GLFW_MOD_CONTROL ||| GLFW_MOD_SHIFT ||| GLFW_MOD_SUPER ||| GLFW_MOD_META ||| GLFW_MOD_HYPER

/-- Translation of `SingleKey` from alatty.fast_data_types: the normalized
lookup identity (masked modifiers, native flag, key code). -/
structure SingleKey where
  mods : Nat
  is_native : Bool
  key : Nat
deriving DecidableEq, Repr

/-- Translation of `KeyEvent` (the fields read by keys.py): modifier
bitmask, primary key code, layout-dependent native key code and the
shifted key code.  In Python `shifted_key` is falsy (0) when absent. -/
structure KeyEvent where
  mods : Nat
  key : Nat
  native_key : Nat
  shifted_key : Nat
deriving DecidableEq, Repr

/-- Modelled from the spec: the per-binding options record of
`KeyDefinition` (alatty.options.utils is not part of the visible source);
the engine reads only the `when_focus_on` context predicate, which
`matching_key_actions` compares by equality. -/
structure KeyDefinitionOptions where
  when_focus_on : String := ""
deriving DecidableEq, Repr

/-- Modelled from the spec: `KeyDefinition` from alatty.options.utils (not
part of the visible source).  One configured binding: the
action-definition string, the flag marking it as part of a multi-key
sequence, the remaining chord steps, and the context options. -/
structure KeyDefinition where
  is_sequence : Bool := false
  rest : List SingleKey := []
  definition : String := ""
  options : KeyDefinitionOptions := {}
deriving DecidableEq, Repr

/-- Modelled from the spec: `KeyDefinition.shift_sequence_and_copy` (from
alatty.options.utils, not in the visible source): sequence continuation
produces a copy shifted forward by one chord step, not a mutation. -/
def KeyDefinition.shift_sequence_and_copy (d : KeyDefinition) : KeyDefinition :=
  { d with rest := d.rest.tail }

/-- Translation of the `KeyMap` type (a Python dict from SingleKey to a
list of KeyDefinition, in insertion order), embedded as an association
list with unique keys. -/
abbrev KeyMap := List (SingleKey × List KeyDefinition)

/-- Dict lookup `keymap.get(k)`. -/
def kmGet : KeyMap → SingleKey → Option (List KeyDefinition)
  | [], _ => none
  | e :: rest, k => if e.1 = k then some e.2 else kmGet rest k

/-- Dict store `keymap[k] = v`: replace in place if present, else append. -/
def kmSet : KeyMap → SingleKey → List KeyDefinition → KeyMap
  | [], k, v => [(k, v)]
  | e :: rest, k, v => if e.1 = k then (k, v) :: rest else e :: kmSet rest k v

/-- Dict removal `keymap.pop(k, None)`.  Keymaps have unique keys, so the
filter form is equivalent to deleting the single entry. -/
def kmPop : KeyMap → SingleKey → KeyMap
  | [], _ => []
  | e :: rest, k => if e.1 = k then kmPop rest k else e :: kmPop rest k

/-- Defaultdict append `keymap[k].append(d)` as used when building
sequence keymaps. -/
def kmAppend : KeyMap → SingleKey → KeyDefinition → KeyMap
  | [], k, d => [(k, [d])]
  | e :: rest, k, d => if e.1 = k then (e.1, e.2 ++ [d]) :: rest else e :: kmAppend rest k d

/-- Modelled from the spec: `KeyboardMode` from alatty.options.utils (not
in the visible source): a named KeyMap plus the behavioral flags read by
keys.py (`on_unknown`, `on_action`) and the mutable `sequence_keys`
buffer, absent (`none`) except while a chord is mid-entry. -/
structure KeyboardMode where
  name : String := ""
  keymap : KeyMap := []
  on_unknown : String := "beep"
  on_action : String := "ignore"
  sequence_keys : Option (List KeyEvent) := none
deriving DecidableEq, Repr

/-- Translation of `get_shortcut` in keys.py: mask the modifiers, then try
the primary key, then the shifted-key fallback (when a shifted key exists
and shift is held), then the native-key fallback. -/
def get_shortcut (keymap : KeyMap) (ev : KeyEvent) : Option (List KeyDefinition) :=
  let mods := ev.mods &&& mod_mask
  let ans := kmGet keymap ⟨mods, false, ev.key⟩
  let ans :=
    if ans = none ∧ ev.shifted_key ≠ 0 ∧ mods &&& GLFW_MOD_SHIFT ≠ 0 then
      kmGet keymap ⟨mods &&& (mod_mask ^^^ GLFW_MOD_SHIFT), false, ev.shifted_key⟩
    else ans
  if ans = none then kmGet keymap ⟨mods, true, ev.native_key⟩ else ans

/-- Index of the last terminal candidate (empty `rest`), or `none`;
translation of the `last_terminal_idx` loop in `matching_key_actions`
(Python uses -1 for "none"). -/
def lastTerminalIdx (ms : List KeyDefinition) : Option Nat :=
  ms.enum.foldl (fun acc p => if p.2.rest.isEmpty then some p.1 else acc) none

/-- Translation of `Mappings.matching_key_actions` in keys.py.  On an
empty candidate list Python would raise IndexError; the embedding returns
`[]`, and no keymap ever stores an empty candidate list. -/
def matching_key_actions (candidates : List KeyDefinition) : List KeyDefinition :=
  let ms := candidates
  let has_sequence_match := ms.any (·.is_sequence)
  if has_sequence_match then
    let ms :=
      match lastTerminalIdx ms with
      | none => ms
      | some i => if i = ms.length - 1 then ms.drop i else ms.drop (i + 1)
    match ms.getLast? with
    | none => []
    | some lastM =>
      ms.filter (fun x => x.options.when_focus_on = lastM.options.when_focus_on)
  else
    match ms.getLast? with
    | none => []
    | some m => [m]

/-- Translation of the `Mappings` object's mutable state: the mode stack
(list head is the stack top; Python appends at the end), the root mode
`keyboard_modes['']`, the other named modes, the global shortcut map and
the ignore-OS-keyboard flag set by `set_ignore_os_keyboard_processing`. -/
structure MappingsState where
  keyboard_mode_stack : List KeyboardMode := []
  root_mode : KeyboardMode := {}
  other_modes : List (String × KeyboardMode) := []
  global_shortcuts_map : KeyMap := []
  ignore_os : Bool := false
deriving DecidableEq, Repr

/-- Currently active mode: top of the stack, or the root mode when the
stack is empty (`keyboard_modes['']`). -/
def active_mode (s : MappingsState) : KeyboardMode :=
  match s.keyboard_mode_stack with
  | [] => s.root_mode
  | m :: _ => m

/-- Translation of `Mappings.pop_keyboard_mode`: returns the `passthrough`
flag together with the updated state. -/
def pop_keyboard_mode (s : MappingsState) : Bool × MappingsState :=
  match s.keyboard_mode_stack with
  | [] => (true, s)
  | _ :: rest =>
    (false, { s with keyboard_mode_stack := rest,
                     ignore_os := if rest.isEmpty then false else s.ignore_os })

/-- Translation of `Mappings._push_keyboard_mode`. -/
def push_keyboard_mode_inner (s : MappingsState) (m : KeyboardMode) : MappingsState :=
  { s with keyboard_mode_stack := m :: s.keyboard_mode_stack, ignore_os := true }

/-- Translation of `Mappings.push_keyboard_mode` (push a configured mode
by name; Python raises KeyError for an unknown name, embedded as `none`). -/
def push_keyboard_mode (s : MappingsState) (name : String) : Option MappingsState :=
  let modes := ("", s.root_mode) :: s.other_modes
  match modes.find? (fun p => p.1 = name) with
  | none => none
  | some p => some (push_keyboard_mode_inner s p.2)

/-- Modelled from the spec: the slice of the parsed `Options` object the
engine consumes — the named keyboard modes, with the distinguished root
mode `''` (which always exists) held separately. -/
structure OptionsModel where
  root_mode : KeyboardMode := {}
  other_modes : List (String × KeyboardMode) := []
deriving DecidableEq, Repr

/-- Translation of `Mappings.update_keymap`: build the global shortcut map
`{v: [KeyDefinition(definition=k)] for k, v in global_shortcuts.items()}`,
copy the configured modes, and remove every global shortcut key from the
root mode's keymap. -/
def update_keymap (s : MappingsState) (opts : OptionsModel)
    (global_shortcuts : List (String × SingleKey)) : MappingsState :=
  let gsm : KeyMap :=
    global_shortcuts.foldl (fun km p => kmSet km p.2 [{ definition := p.1 }]) []
  let km : KeyMap :=
    global_shortcuts.foldl (fun km p => kmPop km p.2) opts.root_mode.keymap
  { s with global_shortcuts_map := gsm,
           root_mode := { opts.root_mode with keymap := km },
           other_modes := opts.other_modes }

/-- External collaborators of `dispatch_possible_special_key`:
`is_modifier_key` from fast_data_types, whether `get_active_window`
returns a window, and the boss's `combine` (only its consumed result is
visible to keys.py). -/
structure KeyEnv where
  is_modifier_key : Nat → Bool
  active_window : Bool
  combine : String → Bool

/-- Result of one `dispatch_possible_special_key` call: the consumed flag,
the updated state, the key events replayed via `send_key_sequence`, and
the action definitions passed to `combine`, in order. -/
structure DispatchOut where
  consumed : Bool
  state : MappingsState
  sent_keys : List KeyEvent
  combined : List String
deriving DecidableEq, Repr

/-- Truthiness test `self.global_shortcuts_map and get_shortcut(...)`:
the dict must be non-empty and the lookup must yield a non-empty list. -/
def gsm_matches (s : MappingsState) (ev : KeyEvent) : Bool :=
  !s.global_shortcuts_map.isEmpty &&
    (match get_shortcut s.global_shortcuts_map ev with
     | some (_ :: _) => true
     | _ => false)

/-- Tail of the no-candidate branch: `if not self.pop_keyboard_mode():
return True` followed by the final `return False`. -/
def pop_tail (s : MappingsState) : DispatchOut :=
  let p := pop_keyboard_mode s
  if !p.1 then ⟨true, p.2, [], []⟩ else ⟨false, p.2, [], []⟩

/-- Translation of the `key_action is None` branch of
`dispatch_possible_special_key` (keys.py lines 117-134). -/
def dispatch_no_candidates (env : KeyEnv) (s : MappingsState) (mode : KeyboardMode)
    (is_root_mode : Bool) (ev : KeyEvent) : DispatchOut :=
  if env.is_modifier_key ev.key then ⟨false, s, [], []⟩
  else if gsm_matches s ev then ⟨true, s, [], []⟩
  else if !is_root_mode then
    match mode.sequence_keys with
    | some sks =>
      let s1 := (pop_keyboard_mode s).2
      ⟨false, s1, if env.active_window then sks else [], []⟩
    | none =>
      if mode.on_unknown = "beep" ∨ mode.on_unknown = "ignore" then ⟨true, s, [], []⟩
      else if mode.on_unknown = "passthrough" then ⟨false, s, [], []⟩
      else pop_tail s
  else pop_tail s

/-- Keymap of a synthesized or advanced sequence mode: for each selected
candidate, `keymap[fa.rest[0]].append(fa.shift_sequence_and_copy())`.  A
candidate with empty `rest` never reaches this loop (Python would raise
IndexError); the embedding skips it. -/
def buildSeqKeymap (fas : List KeyDefinition) : KeyMap :=
  fas.foldl
    (fun km fa =>
      match fa.rest with
      | [] => km
      | k :: _ => kmAppend km k fa.shift_sequence_and_copy)
    []

/-- Store an updated active mode back where Python's aliasing would put
it: the stack top, or `keyboard_modes['']` when the stack is empty. -/
def replace_active_mode (s : MappingsState) (m : KeyboardMode) : MappingsState :=
  match s.keyboard_mode_stack with
  | [] => { s with root_mode := m }
  | _ :: rest => { s with keyboard_mode_stack := m :: rest }

/-- Deletion `del self.keyboard_mode_stack[mode_pos]` (with `mode_pos` the
position of the entry mode) plus the ignore-OS reset.  The guard
`mode_pos < len(stack) and stack[mode_pos] is mode` in the source protects
against action handlers that mutate the stack; in this embedding `combine`
does not touch the mappings state, so for a non-root mode the guard always
holds and the deletion removes the stack top. -/
def del_entry_mode (s : MappingsState) : MappingsState :=
  let rest := s.keyboard_mode_stack.tail
  { s with keyboard_mode_stack := rest,
           ignore_os := if rest.isEmpty then false else s.ignore_os }

/-- Translation of `Mappings.dispatch_possible_special_key` in keys.py. -/
def dispatch_possible_special_key (env : KeyEnv) (s : MappingsState) (ev : KeyEvent) :
    DispatchOut :=
  let is_root_mode := s.keyboard_mode_stack.isEmpty
  let mode := active_mode s
  match get_shortcut mode.keymap ev with
  | none => dispatch_no_candidates env s mode is_root_mode ev
  | some key_action =>
    match matching_key_actions key_action with
    | [] => ⟨false, s, [], []⟩
    | fa0 :: fas =>
      if fa0.is_sequence then
        match mode.sequence_keys with
        | none =>
          let sm : KeyboardMode :=
            { name := "__sequence__", keymap := buildSeqKeymap (fa0 :: fas),
              on_unknown := "beep", on_action := "end", sequence_keys := some [ev] }
          ⟨true, push_keyboard_mode_inner s sm, [], []⟩
        | some sks =>
          if fas.isEmpty ∧ fa0.rest.isEmpty then
            let s1 := (pop_keyboard_mode s).2
            let consumed := env.combine fa0.definition
            ⟨consumed, s1,
             if !consumed ∧ env.active_window then sks else [], [fa0.definition]⟩
          else
            let mode' := { mode with
              sequence_keys := some (sks ++ [ev]),
              keymap := buildSeqKeymap (fa0 :: fas) }
            ⟨true, replace_active_mode s mode', [], []⟩
      else
        let consumed := env.combine fa0.definition
        let s1 :=
          if consumed ∧ !is_root_mode ∧ mode.on_action = "end" then del_entry_mode s else s
        ⟨consumed, s1, [], [fa0.definition]⟩

/-- Translation of `KeyAction` consumed by `Boss.dispatch_action`: an
action name plus positional arguments (the parsed form of an action
definition). -/
structure KeyAction where
  func : String
  args : List String
deriving DecidableEq, Repr

/-- Modelled from the spec: `KeyAction.pretty` (alatty.options.utils is
not part of the visible source) renders the action name together with its
arguments; only its use inside error messages matters here. -/
def KeyAction.pretty (ka : KeyAction) : String :=
  String.intercalate " " (ka.func :: ka.args)

/-- Outcome of invoking a capability's callable: it either returns (with
`declined = true` exactly when the Python return value is the designated
non-consuming `True`) or raises an exception with a message. -/
inductive CallOutcome where
  | ret (declined : Bool)
  | raises (msg : String)
deriving DecidableEq, Repr

/-- One attempted capability invocation, recorded for the dispatch trace. -/
inductive ScopeCall where
  | app (name : String)
  | tab (name : String)
  | window (name : String)
deriving DecidableEq, Repr

/-- External collaborators of `Boss.dispatch_action` and `Boss.combine`:
the three capability scopes (`none` = the scope does not expose a callable
of that name), whether an active tab and an active window exist, and the
alias expansion `get_options().alias_map.resolve_aliases`. -/
structure BossEnv where
  app_scope : String → Option CallOutcome
  tab_scope : String → Option CallOutcome
  window_scope : String → Option CallOutcome
  has_tab : Bool
  has_window : Bool
  resolve_aliases : String → Except String (List KeyAction)

/-- Tab/window stage of `Boss.dispatch_action`: `if tab is None or window
is None: return False`, then `getattr(tab, func, getattr(window, func,
None))` picks the tab's callable when present, else the window's; the one
call's non-`True` return means consumed. -/
def dispatch_tab_window (env : BossEnv) (ka : KeyAction) (tr : List ScopeCall) :
    Except String (Bool × List ScopeCall) :=
  if !env.has_tab ∨ !env.has_window then .ok (false, tr)
  else
    match env.tab_scope ka.func with
    | some (.raises m) => .error m
    | some (.ret d) => .ok (!d, tr ++ [.tab ka.func])
    | none =>
      match env.window_scope ka.func with
      | some (.raises m) => .error m
      | some (.ret d) => .ok (!d, tr ++ [.window ka.func])
      | none => .ok (false, tr)

/-- Translation of `Boss.dispatch_action` (boss.py) for a present
`key_action`: try the application-wide callable first; a non-`True`
return consumes, a `True` return (declined) falls through to the
tab/window stage; exceptions propagate to `combine`.  The returned trace
records every capability invocation in order. -/
def dispatch_action (env : BossEnv) (ka : KeyAction) :
    Except String (Bool × List ScopeCall) :=
  match env.app_scope ka.func with
  | some (.raises m) => .error m
  | some (.ret d) =>
    if !d then .ok (true, [.app ka.func])
    else dispatch_tab_window env ka [.app ka.func]
  | none => dispatch_tab_window env ka []

/-- Result of one `Boss.combine` call: the consumed flag, the
`show_error(title, message)` reports, and the actions handed to
`drain_actions` for deferred execution. -/
structure CombineOut where
  consumed : Bool
  errors : List (String × String)
  scheduled : List KeyAction
deriving DecidableEq, Repr

/-- Translation of `Boss.combine` (boss.py) with the default
`raise_error=False` used on the key dispatch path: alias expansion errors
are reported and consumed; an exception from executing the first action is
caught, reported with the action's pretty text, and consumed; on a
successful consuming dispatch the remaining actions are scheduled. -/
def combine (env : BossEnv) (action_definition : String) : CombineOut :=
  if action_definition = "" then ⟨false, [], []⟩
  else
    match env.resolve_aliases action_definition with
    | .error e => ⟨true, [("Failed to parse action", action_definition ++ "\n" ++ e)], []⟩
    | .ok [] => ⟨false, [], []⟩
    | .ok (a0 :: rest) =>
      match dispatch_action env a0 with
      | .ok (true, _) => ⟨true, [], rest⟩
      | .ok (false, _) => ⟨false, [], []⟩
      | .error e => ⟨true, [("Key action failed", a0.pretty ++ "\n" ++ e)], []⟩

/-- Consumed flag of a `dispatch_action` result, `none` when the call
raised. -/
def dispatchConsumed (r : Except String (Bool × List ScopeCall)) : Option Bool :=
  match r with
  | .ok (c, _) => some c
  | .error _ => none

/-- Capability-invocation trace of a `dispatch_action` result, `none` when
the call raised. -/
def dispatchTrace (r : Except String (Bool × List ScopeCall)) : Option (List ScopeCall) :=
  match r with
  | .ok (_, tr) => some tr
  | .error _ => none

/-- Selection rule exactly as claim C1 words it (for comparison with
`matching_key_actions`): with a sequence-flagged candidate present and at
least one terminal candidate, retain the last terminal candidate *and
every candidate after it*; with no terminal, retain all continuing
candidates; then filter by the last retained candidate's `when_focus_on`.
Without any sequence-flagged candidate, return the last candidate. -/
def select_spec (cs : List KeyDefinition) : List KeyDefinition :=
  if cs.any (·.is_sequence) then
    let retained :=
      match lastTerminalIdx cs with
      | none => cs
      | some i => cs.drop i
    match retained.getLast? with
    | none => []
    | some lastM =>
      retained.filter (fun x => x.options.when_focus_on = lastM.options.when_focus_on)
  else
    match cs.getLast? with
    | none => []
    | some m => [m]

/-- Amended selection rule: the candidates *strictly after* the last
terminal candidate are retained; the last terminal candidate itself is
kept only when no candidate follows it. -/
def select_spec_amended (cs : List KeyDefinition) : List KeyDefinition :=
  if cs.any (·.is_sequence) then
    let retained :=
      match lastTerminalIdx cs with
      | none => cs
      | some i =>
        let after := cs.drop (i + 1)
        if after.isEmpty then cs.drop i else after
    match retained.getLast? with
    | none => []
    | some lastM =>
      retained.filter (fun x => x.options.when_focus_on = lastM.options.when_focus_on)
  else
    match cs.getLast? with
    | none => []
    | some m => [m]

/-- Retention windows of the code and of the amended rule coincide. -/
lemma retained_drop_eq (cs : List KeyDefinition) (i : Nat) :
    (if i = cs.length - 1 then cs.drop i else cs.drop (i + 1)) =
    (if (cs.drop (i + 1)).isEmpty then cs.drop i else cs.drop (i + 1)) := by
  by_cases h1 : i = cs.length - 1
  · subst h1
    have hnil : cs.drop (cs.length - 1 + 1) = [] := List.drop_eq_nil_of_le (by omega)
    simp [hnil]
  · by_cases h2 : (cs.drop (i + 1)).isEmpty
    · have hle : cs.length ≤ i + 1 := by
        simpa [List.isEmpty_iff, List.drop_eq_nil_iff] using h2
      have hle2 : cs.length ≤ i := by omega
      simp [h1, h2, List.drop_eq_nil_of_le hle, List.drop_eq_nil_of_le hle2]
    · simp [h1, h2]

/-- Terminal candidate in front of a continuing one, sharing a focus
context; claim C1 retains both, the code drops the terminal one. -/
def kd_term : KeyDefinition := { is_sequence := true, rest := [], definition := "t" }

/-- Continuing candidate placed after `kd_term`. -/
def kd_cont : KeyDefinition :=
  { is_sequence := true, rest := [⟨GLFW_MOD_CONTROL, false, 31⟩], definition := "c" }

/-- Claim C1 is false as stated: on the candidate list `[kd_term,
kd_cont]` (a terminal entry followed by a continuing one, equal
`when_focus_on`), the claim's rule retains both entries but
`matching_key_actions` drops the last terminal entry, keeping only what
follows it. -/
theorem C1_counterexample :
    matching_key_actions [kd_term, kd_cont] = [kd_cont] ∧
    select_spec [kd_term, kd_cont] = [kd_term, kd_cont] ∧
    ([kd_cont] : List KeyDefinition) ≠ [kd_term, kd_cont] := by
  refine ⟨by decide, by decide, by decide⟩

/-- Claim C1 amended: for every non-empty candidate list,
`matching_key_actions` returns the last candidate when none is
sequence-flagged; otherwise it retains the candidates strictly after the
last terminal candidate (the last terminal itself only when no candidate
follows it; all candidates when there is no terminal) and filters the
retained set to the `when_focus_on` of its last entry. -/
theorem C1_matching_key_actions_amended (cs : List KeyDefinition) (_h : cs ≠ []) :
    matching_key_actions cs = select_spec_amended cs := by
  unfold matching_key_actions select_spec_amended
  by_cases hseq : cs.any (·.is_sequence)
  · simp only [hseq, if_true]
    cases hlt : lastTerminalIdx cs
    · rfl
    · simp only [retained_drop_eq]
  · simp [hseq]

/-- Witness for C1: the amended rule evaluated on the counterexample
candidate list. -/
theorem C1_witness :
    matching_key_actions [kd_term, kd_cont] = select_spec_amended [kd_term, kd_cont] :=
  C1_matching_key_actions_amended [kd_term, kd_cont] (by decide)

/- Concrete single-chord/two-chord scenario shared by several claims:
binding "ctrl+x>ctrl+s → save_session" with no standalone ctrl+x binding. -/

/-- SingleKey for ctrl+x. -/
def sk_ctrl_x : SingleKey := ⟨GLFW_MOD_CONTROL, false, 120⟩

/-- SingleKey for ctrl+s. -/
def sk_ctrl_s : SingleKey := ⟨GLFW_MOD_CONTROL, false, 115⟩

/-- The configured binding "ctrl+x>ctrl+s → save_session": stored under
`sk_ctrl_x` with the remaining chord step `sk_ctrl_s`. -/
def kd_save : KeyDefinition :=
  { is_sequence := true, rest := [sk_ctrl_s], definition := "save_session" }

/-- Key event for pressing ctrl+x. -/
def ev_ctrl_x : KeyEvent := ⟨GLFW_MOD_CONTROL, 120, 120, 0⟩

/-- Key event for pressing ctrl+s. -/
def ev_ctrl_s : KeyEvent := ⟨GLFW_MOD_CONTROL, 115, 115, 0⟩

/-- Key event for pressing an unbound key k (no modifiers). -/
def ev_k : KeyEvent := ⟨0, 107, 107, 0⟩

/-- Idle engine state: empty mode stack, root keymap holding only the
chord prefix binding, no global shortcuts. -/
def root_state : MappingsState := { root_mode := { keymap := [(sk_ctrl_x, [kd_save])] } }

/-- The sequence mode `dispatch_possible_special_key` synthesizes after
ctrl+x: seeded with that event, keymap built from the shifted binding. -/
def seq_mode : KeyboardMode :=
  { name := "__sequence__",
    keymap := [(sk_ctrl_s, [kd_save.shift_sequence_and_copy])],
    on_unknown := "beep", on_action := "end", sequence_keys := some [ev_ctrl_x] }

/-- Engine state mid-chord, after ctrl+x was pressed in `root_state`. -/
def seq_state : MappingsState :=
  { root_state with keyboard_mode_stack := [seq_mode], ignore_os := true }

/-- Environment whose action dispatch always consumes. -/
def env_consume : KeyEnv :=
  { is_modifier_key := fun _ => false, active_window := true, combine := fun _ => true }

/-- Environment whose action dispatch always declines. -/
def env_decline : KeyEnv :=
  { is_modifier_key := fun _ => false, active_window := true, combine := fun _ => false }

/-- Environment that reports every key as a pure modifier key. -/
def env_modifier : KeyEnv :=
  { is_modifier_key := fun _ => true, active_window := true, combine := fun _ => true }

/-- Claim C10: a pure modifier key with no entry in the active mode's
KeyMap is not consumed and leaves the whole engine state (mode stack,
keymaps, sequence buffers) unchanged, with nothing replayed and no action
dispatched. -/
theorem C10_modifier_key_inert (env : KeyEnv) (s : MappingsState) (ev : KeyEvent)
    (h1 : get_shortcut (active_mode s).keymap ev = none)
    (h2 : env.is_modifier_key ev.key = true) :
    dispatch_possible_special_key env s ev = ⟨false, s, [], []⟩ := by
  unfold dispatch_possible_special_key
  simp [h1, dispatch_no_candidates, h2]

/-- Witness for C10: a bare ctrl press mid-chord (state `seq_state`) is
not consumed and abandons nothing. -/
theorem C10_witness :
    dispatch_possible_special_key env_modifier seq_state ⟨GLFW_MOD_CONTROL, 17, 0, 0⟩ =
      ⟨false, seq_state, [], []⟩ :=
  C10_modifier_key_inert env_modifier seq_state ⟨GLFW_MOD_CONTROL, 17, 0, 0⟩ (by decide) rfl

/-- Global-shortcut lookups that find no entry never satisfy the
truthiness test on line 120 of keys.py. -/
lemma gsm_matches_of_none (s : MappingsState) (ev : KeyEvent)
    (h : get_shortcut s.global_shortcuts_map ev = none) : gsm_matches s ev = false := by
  unfold gsm_matches
  rw [h]
  simp

/-- Idle state whose global shortcut map binds ctrl+x (and whose root
keymap is empty), for exercising the global-shortcut branch. -/
def global_state : MappingsState :=
  { global_shortcuts_map := [(sk_ctrl_x, [{ definition := "quit" }])] }

/-- Claim C6 is false as stated: with ctrl+x present only in the
GlobalShortcutMap, the event is consumed and the state is untouched, but
no action at all reaches the Action Dispatcher from this call (`combined`
is empty; delivery of macOS global shortcuts happens outside the engine),
whereas the claim asserts the matched binding's action is dispatched. -/
theorem C6_counterexample :
    dispatch_possible_special_key env_consume global_state ev_ctrl_x =
      ⟨true, global_state, [], []⟩ ∧
    (dispatch_possible_special_key env_consume global_state ev_ctrl_x).combined = [] := by
  refine ⟨by decide, by decide⟩

/-- Claim C6 amended: when the active-mode lookup yields no candidates for
a non-modifier event and the GlobalShortcutMap matches it,
`dispatch_possible_special_key` returns consumed = true and leaves the
engine state unchanged; it dispatches no action itself (global-shortcut
delivery is the OS layer's job). -/
theorem C6_global_shortcut_amended (env : KeyEnv) (s : MappingsState) (ev : KeyEvent)
    (h1 : get_shortcut (active_mode s).keymap ev = none)
    (h2 : env.is_modifier_key ev.key = false)
    (h3 : gsm_matches s ev = true) :
    dispatch_possible_special_key env s ev = ⟨true, s, [], []⟩ := by
  unfold dispatch_possible_special_key
  simp [h1, dispatch_no_candidates, h2, h3]

/-- Witness for C6: the concrete global-shortcut state. -/
theorem C6_witness :
    dispatch_possible_special_key env_consume global_state ev_ctrl_x =
      ⟨true, global_state, [], []⟩ :=
  C6_global_shortcut_amended env_consume global_state ev_ctrl_x (by decide) rfl (by decide)

/-- Non-root mode that swallows unknown keys (`on_unknown = beep`). -/
def beep_mode : KeyboardMode := { name := "beeper", on_unknown := "beep" }

/-- State with `beep_mode` pushed above an empty root. -/
def beep_state : MappingsState :=
  { keyboard_mode_stack := [beep_mode], ignore_os := true }

/-- Claim C7 is false as stated: in a pushed mode with `on_unknown =
beep`, an unresolved non-modifier key with no global shortcut is consumed
(swallowed), not passed through. -/
theorem C7_counterexample :
    (dispatch_possible_special_key env_consume beep_state ev_k).consumed = true := by
  decide

/-- Claim C7 amended: an unresolved non-modifier key with no global
shortcut entry is not consumed provided the active mode passes unknown
keys through — that is, in the root mode, in a sequence mode, or in a
mode with `on_unknown = passthrough` (a pushed mode with `on_unknown` of
beep or ignore instead swallows the key). -/
theorem C7_unresolved_passthrough_amended (env : KeyEnv) (s : MappingsState) (ev : KeyEvent)
    (h1 : get_shortcut (active_mode s).keymap ev = none)
    (h2 : env.is_modifier_key ev.key = false)
    (h3 : get_shortcut s.global_shortcuts_map ev = none)
    (h4 : s.keyboard_mode_stack = [] ∨ (active_mode s).sequence_keys ≠ none ∨
          (active_mode s).on_unknown = "passthrough") :
    (dispatch_possible_special_key env s ev).consumed = false := by
  have hg := gsm_matches_of_none s ev h3
  unfold dispatch_possible_special_key
  simp only [h1, dispatch_no_candidates, h2, hg, Bool.false_eq_true, if_false]
  rcases hst : s.keyboard_mode_stack with _ | ⟨m, rest⟩
  · simp [hst, pop_tail, pop_keyboard_mode]
  · have hroot : s.keyboard_mode_stack.isEmpty = false := by simp [hst]
    rcases h4 with h4 | h4 | h4
    · simp [hst] at h4
    · rcases hsk : (active_mode s).sequence_keys with _ | sks
      · exact absurd hsk h4
      · simp [hroot, hsk]
    · rcases hsk : (active_mode s).sequence_keys with _ | sks
      · have hb : ¬((active_mode s).on_unknown = "beep" ∨ (active_mode s).on_unknown = "ignore") := by
          rw [h4]; decide
        simp [hroot, hsk, h4, hb]
      · simp [hroot, hsk]

/-- Witness for C7: unresolved key in the root mode passes through. -/
theorem C7_witness :
    (dispatch_possible_special_key env_consume ({} : MappingsState) ev_k).consumed = false :=
  C7_unresolved_passthrough_amended env_consume {} ev_k (by decide) rfl (by decide)
    (Or.inl rfl)

/-- Claim C4 amended: when a sequence mode is on top and the resolver
finds no candidate for a non-modifier, non-global event, the sequence
mode is popped, exactly the *buffered* chord keys (`sequence_keys`, which
do not include the triggering event) are replayed to the focused surface
in order, and the triggering event itself is reported not-consumed — its
literal delivery is left to the caller. -/
theorem C4_sequence_abandon_amended (env : KeyEnv) (s : MappingsState) (ev : KeyEvent)
    (m : KeyboardMode) (rest : List KeyboardMode) (sks : List KeyEvent)
    (hst : s.keyboard_mode_stack = m :: rest)
    (hsk : m.sequence_keys = some sks)
    (h1 : get_shortcut m.keymap ev = none)
    (h2 : env.is_modifier_key ev.key = false)
    (h3 : get_shortcut s.global_shortcuts_map ev = none)
    (hw : env.active_window = true) :
    dispatch_possible_special_key env s ev =
      ⟨false,
       { s with keyboard_mode_stack := rest,
                ignore_os := if rest.isEmpty then false else s.ignore_os },
       sks, []⟩ := by
  have hg := gsm_matches_of_none s ev h3
  have hm : active_mode s = m := by simp [active_mode, hst]
  have hroot : s.keyboard_mode_stack.isEmpty = false := by simp [hst]
  unfold dispatch_possible_special_key
  simp only [hm, h1, hroot]
  unfold dispatch_no_candidates
  simp [h2, hg, hsk, pop_keyboard_mode, hst, hw]

/-- Claim C4 is false in its replay inventory: in the §8 scenario (chord
prefix ctrl+x entered, then unbound k) the engine replays only the
buffered prefix `[ev_ctrl_x]` — not `[ev_ctrl_x, ev_k]` as the claim
states — and k is delivered separately through the not-consumed return. -/
theorem C4_counterexample :
    (dispatch_possible_special_key env_consume seq_state ev_k).sent_keys = [ev_ctrl_x] ∧
    (dispatch_possible_special_key env_consume seq_state ev_k).sent_keys ≠ [ev_ctrl_x, ev_k] ∧
    (dispatch_possible_special_key env_consume seq_state ev_k).consumed = false := by
  refine ⟨by decide, by decide, by decide⟩

/-- Witness for C4: the §8 scenario, after the ctrl+x prefix, on the
unbound key k. -/
theorem C4_witness :
    dispatch_possible_special_key env_consume seq_state ev_k =
      ⟨false, { seq_state with keyboard_mode_stack := [], ignore_os := false },
       [ev_ctrl_x], []⟩ :=
  C4_sequence_abandon_amended env_consume seq_state ev_k seq_mode [] [ev_ctrl_x]
    rfl rfl (by decide) rfl (by decide) rfl

/-- Claim C2 amended: with a sequence mode on top and the resolver
selecting exactly one sequence-flagged candidate with no further chord
continuation, the sequence mode is popped and the candidate's action is
dispatched; if the dispatch reports not-consumed the buffered keys are
replayed to the focused surface; the call returns the dispatcher's
consumed result — true when the action consumed, false when it declined
(not unconditionally true as the claim states). -/
theorem C2_sequence_terminal_amended (env : KeyEnv) (s : MappingsState) (ev : KeyEvent)
    (m : KeyboardMode) (rest : List KeyboardMode) (sks : List KeyEvent)
    (cs : List KeyDefinition) (d : KeyDefinition)
    (hst : s.keyboard_mode_stack = m :: rest)
    (hsk : m.sequence_keys = some sks)
    (hga : get_shortcut m.keymap ev = some cs)
    (hma : matching_key_actions cs = [d])
    (hseq : d.is_sequence = true)
    (hrest : d.rest = [])
    (hw : env.active_window = true) :
    dispatch_possible_special_key env s ev =
      ⟨env.combine d.definition,
       { s with keyboard_mode_stack := rest,
                ignore_os := if rest.isEmpty then false else s.ignore_os },
       if env.combine d.definition then [] else sks,
       [d.definition]⟩ := by
  have hm : active_mode s = m := by simp [active_mode, hst]
  unfold dispatch_possible_special_key
  simp only [hm, hga, hma, hseq, hsk, hrest]
  simp [pop_keyboard_mode, hst, hw]
  cases env.combine d.definition <;> simp

/-- Claim C2 is false in its consumed result: in the chord scenario, when
the terminal action's dispatch declines (`combine` returns false), the
call returns not-consumed — the claim asserts consumed = true either way.
The buffered prefix is replayed as the claim describes. -/
theorem C2_counterexample :
    (dispatch_possible_special_key env_decline seq_state ev_ctrl_s).consumed = false ∧
    (dispatch_possible_special_key env_decline seq_state ev_ctrl_s).sent_keys = [ev_ctrl_x] ∧
    (dispatch_possible_special_key env_decline seq_state ev_ctrl_s).combined =
      ["save_session"] := by
  refine ⟨by decide, by decide, by decide⟩

/-- Witness for C2: the chord scenario with a consuming handler. -/
theorem C2_witness :
    dispatch_possible_special_key env_consume seq_state ev_ctrl_s =
      ⟨true, { seq_state with keyboard_mode_stack := [], ignore_os := false },
       [], ["save_session"]⟩ :=
  C2_sequence_terminal_amended env_consume seq_state ev_ctrl_s seq_mode [] [ev_ctrl_x]
    [kd_save.shift_sequence_and_copy] kd_save.shift_sequence_and_copy
    rfl rfl (by decide) (by decide) (by decide) (by decide) rfl

/-- Claim C5: sequence round trip.  With "ctrl+x>ctrl+s → save_session"
bound and no standalone ctrl+x binding, pressing ctrl+x synthesizes and
pushes the sequence mode `seq_mode` — seeded with that event in its
`sequence_keys` buffer and with a keymap built from the selected
candidate's next chord step — returning consumed = true with no action
dispatched; pressing ctrl+s then dispatches `save_session` (assumed to
consume), returns consumed = true, and restores the pre-chord idle state
exactly. -/
theorem C5_sequence_round_trip (env : KeyEnv) (hc : env.combine "save_session" = true) :
    dispatch_possible_special_key env root_state ev_ctrl_x = ⟨true, seq_state, [], []⟩ ∧
    dispatch_possible_special_key env seq_state ev_ctrl_s =
      ⟨true, root_state, [], ["save_session"]⟩ := by
  constructor
  · rfl
  · have h1 : dispatch_possible_special_key env seq_state ev_ctrl_s =
        ⟨env.combine "save_session", root_state,
         if !(env.combine "save_session") ∧ env.active_window then [ev_ctrl_x] else [],
         ["save_session"]⟩ := rfl
    rw [h1, hc]
    simp

/-- Witness for C5: the always-consuming environment. -/
theorem C5_witness :
    dispatch_possible_special_key env_consume root_state ev_ctrl_x = ⟨true, seq_state, [], []⟩ ∧
    dispatch_possible_special_key env_consume seq_state ev_ctrl_s =
      ⟨true, root_state, [], ["save_session"]⟩ :=
  C5_sequence_round_trip env_consume rfl

/-- Environment in which the action "foo" is exposed by the application
scope (which declines it) and by the active tab's scope (which handles
it); tab and window exist. -/
def benv_app_declines : BossEnv :=
  { app_scope := fun n => if n = "foo" then some (.ret true) else none,
    tab_scope := fun n => if n = "foo" then some (.ret false) else none,
    window_scope := fun _ => none,
    has_tab := true, has_window := true,
    resolve_aliases := fun sdef => .ok [⟨sdef, []⟩] }

/-- Claim C3 is false as stated: with the application scope exposing
"foo" and signalling declined, `dispatch_action` does not stop — it goes
on to invoke the tab's callable (trace `[app, tab]`) and reports
consumed, whereas the claim requires not-consumed with no further scope
attempted. -/
theorem C3_counterexample :
    dispatchConsumed (dispatch_action benv_app_declines ⟨"foo", []⟩) ≠ some false ∧
    dispatchTrace (dispatch_action benv_app_declines ⟨"foo", []⟩) =
      some [.app "foo", .tab "foo"] := by
  refine ⟨by decide, by decide⟩

/-- Claim C3 amended: `dispatch_action` resolves in the strict scope
order application, then active tab, then active window; a non-declined
return from the first exposing scope consumes; a 'declined' signalled by
the tab-or-window callable reports not-consumed with no further scope
attempted; but a 'declined' from the *application* scope does not stop
resolution — it falls through to the tab/window stage. -/
theorem C3_dispatch_action_amended (env : BossEnv) (ka : KeyAction) :
    (env.app_scope ka.func = some (.ret false) →
       dispatch_action env ka = .ok (true, [.app ka.func])) ∧
    (env.app_scope ka.func = some (.ret true) → env.has_tab = true → env.has_window = true →
       env.tab_scope ka.func = some (.ret true) →
       dispatch_action env ka = .ok (false, [.app ka.func, .tab ka.func])) ∧
    (env.app_scope ka.func = none → env.has_tab = true → env.has_window = true →
       env.tab_scope ka.func = some (.ret true) →
       dispatch_action env ka = .ok (false, [.tab ka.func])) ∧
    (env.app_scope ka.func = none → env.has_tab = true → env.has_window = true →
       env.tab_scope ka.func = none → env.window_scope ka.func = some (.ret true) →
       dispatch_action env ka = .ok (false, [.window ka.func])) ∧
    (env.app_scope ka.func = none → env.has_tab = true → env.has_window = true →
       env.tab_scope ka.func = none → env.window_scope ka.func = some (.ret false) →
       dispatch_action env ka = .ok (true, [.window ka.func])) := by
  refine ⟨?_, ?_, ?_, ?_, ?_⟩
  · intro h
    simp [dispatch_action, h]
  · intro h ht hw htab
    simp [dispatch_action, dispatch_tab_window, h, ht, hw, htab]
  · intro h ht hw htab
    simp [dispatch_action, dispatch_tab_window, h, ht, hw, htab]
  · intro h ht hw htab hwin
    simp [dispatch_action, dispatch_tab_window, h, ht, hw, htab, hwin]
  · intro h ht hw htab hwin
    simp [dispatch_action, dispatch_tab_window, h, ht, hw, htab, hwin]

/-- Environment in which both the application scope and the tab scope
decline "foo". -/
def benv_tab_declines : BossEnv :=
  { benv_app_declines with tab_scope := fun n => if n = "foo" then some (.ret true) else none }

/-- Witness for C3: the tab-declines clause evaluated in a concrete
environment where the application scope declined "foo" and the tab's
callable declines too. -/
theorem C3_witness :
    dispatch_action benv_tab_declines ⟨"foo", []⟩ =
      .ok (false, [.app "foo", .tab "foo"]) := by
  have h := (C3_dispatch_action_amended benv_tab_declines ⟨"foo", []⟩).2.1
  exact h (by decide) rfl rfl (by decide)

/-- Environment whose application scope raises "boom" for every action;
aliases resolve to the single action named by the definition itself. -/
def benv_raise : BossEnv :=
  { app_scope := fun _ => some (.raises "boom"),
    tab_scope := fun _ => none, window_scope := fun _ => none,
    has_tab := true, has_window := true,
    resolve_aliases := fun sdef => .ok [⟨sdef, []⟩] }

/-- Key-dispatch environment wired to `benv_raise`: the consumed flag
seen by keys.py is the one `Boss.combine` reports. -/
def env_raise : KeyEnv :=
  { is_modifier_key := fun _ => false, active_window := true,
    combine := fun sdef => (combine benv_raise sdef).consumed }

/-- Non-sequence binding dispatching "quit". -/
def kd_quit : KeyDefinition := { definition := "quit" }

/-- Idle state binding ctrl+x directly to the non-sequence `kd_quit`. -/
def ns_state : MappingsState := { root_mode := { keymap := [(sk_ctrl_x, [kd_quit])] } }

/-- Claim C8 is false in its depth clause: when the raising handler is
reached through a terminal chord dispatch, `combine` catches the
exception, reports it and returns consumed = true — but the sequence mode
was popped, so the mode stack depth observed after
`dispatch_possible_special_key` is 0 where it was 1 before, not equal as
the claim states. -/
theorem C8_counterexample :
    combine benv_raise "save_session" =
      ⟨true, [("Key action failed", "save_session\nboom")], []⟩ ∧
    seq_state.keyboard_mode_stack.length = 1 ∧
    (dispatch_possible_special_key env_raise seq_state ev_ctrl_s).consumed = true ∧
    (dispatch_possible_special_key env_raise seq_state ev_ctrl_s).state.keyboard_mode_stack.length
      = 0 := by
  refine ⟨by decide, by decide, by decide, by decide⟩

/-- Claim C8 amended: an exception raised by an action handler is caught
inside `combine` (it does not propagate), a user-visible error containing
the failing action's text is reported, and `combine` returns consumed =
true.  `dispatch_possible_special_key` then treats the dispatch exactly
like a normally consumed action: with the root mode active the state
(hence the mode stack depth) is unchanged, while a pushed mode with
`on_action = end` is popped just as it would be for a successful action. -/
theorem C8_error_containment_amended :
    (∀ (benv : BossEnv) (defn : String) (ka : KeyAction) (msg : String),
       defn ≠ "" →
       benv.resolve_aliases defn = .ok [ka] →
       benv.app_scope ka.func = some (.raises msg) →
       combine benv defn =
         ⟨true, [("Key action failed", ka.pretty ++ "\n" ++ msg)], []⟩) ∧
    (∀ (env : KeyEnv) (s : MappingsState) (ev : KeyEvent) (cs ds : List KeyDefinition)
       (d : KeyDefinition),
       s.keyboard_mode_stack = [] →
       get_shortcut s.root_mode.keymap ev = some cs →
       matching_key_actions cs = d :: ds →
       d.is_sequence = false →
       (dispatch_possible_special_key env s ev).state = s ∧
       (dispatch_possible_special_key env s ev).consumed = env.combine d.definition) ∧
    (∀ (env : KeyEnv) (s : MappingsState) (ev : KeyEvent) (m : KeyboardMode)
       (rest : List KeyboardMode) (cs ds : List KeyDefinition) (d : KeyDefinition),
       s.keyboard_mode_stack = m :: rest →
       get_shortcut m.keymap ev = some cs →
       matching_key_actions cs = d :: ds →
       d.is_sequence = false →
       m.on_action = "end" →
       env.combine d.definition = true →
       (dispatch_possible_special_key env s ev).state.keyboard_mode_stack = rest) := by
  refine ⟨?_, ?_, ?_⟩
  · intro benv defn ka msg hne hres happ
    simp [combine, hne, hres, dispatch_action, happ]
  · intro env s ev cs ds d hst hget hma hseq
    have hm : active_mode s = s.root_mode := by simp [active_mode, hst]
    have hroot : s.keyboard_mode_stack.isEmpty = true := by simp [hst]
    unfold dispatch_possible_special_key
    simp [hm, hget, hma, hseq, hroot]
  · intro env s ev m rest cs ds d hst hget hma hseq hend hc
    have hm : active_mode s = m := by simp [active_mode, hst]
    have hroot : s.keyboard_mode_stack.isEmpty = false := by simp [hst]
    unfold dispatch_possible_special_key
    simp [hm, hget, hma, hseq, hroot, hend, hc, del_entry_mode, hst]

/-- Witness for C8: the raising environment on "save_session", and the
root-mode dispatch of the non-sequence "quit" binding. -/
theorem C8_witness :
    combine benv_raise "save_session" =
      ⟨true, [("Key action failed", "save_session\nboom")], []⟩ ∧
    (dispatch_possible_special_key env_raise ns_state ev_ctrl_x).state = ns_state ∧
    (dispatch_possible_special_key env_raise ns_state ev_ctrl_x).consumed =
      env_raise.combine "quit" :=
  ⟨C8_error_containment_amended.1 benv_raise "save_session" ⟨"save_session", []⟩ "boom"
     (by decide) rfl rfl,
   C8_error_containment_amended.2.1 env_raise ns_state ev_ctrl_x [kd_quit] [] kd_quit
     rfl (by decide) (by decide) rfl⟩

/-- Popping a key removes it. -/
lemma kmGet_kmPop_self (km : KeyMap) (k : SingleKey) : kmGet (kmPop km k) k = none := by
  induction km with
  | nil => rfl
  | cons e rest ih =>
    by_cases h : e.1 = k
    · simpa [kmPop, h] using ih
    · simpa [kmPop, h, kmGet] using ih

/-- Popping never introduces a key. -/
lemma kmGet_kmPop_of_none (km : KeyMap) (k k2 : SingleKey) (h : kmGet km k = none) :
    kmGet (kmPop km k2) k = none := by
  induction km with
  | nil => rfl
  | cons e rest ih =>
    simp only [kmGet] at h
    by_cases he : e.1 = k
    · simp [he] at h
    · by_cases he2 : e.1 = k2
      · simp only [kmPop, if_pos he2]
        exact ih (by simpa [he] using h)
      · simp only [kmPop, if_neg he2, kmGet, if_neg he]
        exact ih (by simpa [he] using h)

/-- A key absent from a keymap stays absent through a fold of pops. -/
lemma popFold_of_none (l : List (String × SingleKey)) (km : KeyMap) (k : SingleKey)
    (h : kmGet km k = none) :
    kmGet (l.foldl (fun m p => kmPop m p.2) km) k = none := by
  induction l generalizing km with
  | nil => exact h
  | cons p rest ih => exact ih _ (kmGet_kmPop_of_none _ _ _ h)

/-- Every key popped by the fold is absent from its result. -/
lemma popFold_of_mem (l : List (String × SingleKey)) (km : KeyMap) (k : SingleKey)
    (h : k ∈ l.map Prod.snd) :
    kmGet (l.foldl (fun m p => kmPop m p.2) km) k = none := by
  induction l generalizing km with
  | nil => simp at h
  | cons p rest ih =>
    rcases (by simpa using h : k = p.2 ∨ ∃ a, (a, k) ∈ rest) with h1 | h1
    · exact popFold_of_none rest _ _ (by rw [h1]; exact kmGet_kmPop_self km p.2)
    · exact ih _ (by simpa using h1)

/-- Setting one key leaves lookups of other keys unchanged. -/
lemma kmGet_kmSet_ne (km : KeyMap) (k : SingleKey) (v : List KeyDefinition)
    (k2 : SingleKey) (h : k2 ≠ k) : kmGet (kmSet km k v) k2 = kmGet km k2 := by
  induction km with
  | nil => simp [kmSet, kmGet, h, Ne.symm h]
  | cons e rest ih =>
    by_cases he : e.1 = k
    · simp [kmSet, he, kmGet, Ne.symm h, ih]
    · simp only [kmSet, if_neg he, kmGet]
      by_cases he2 : e.1 = k2 <;> simp [he2, ih]

/-- Keys present after the global-shortcut-map fold were present before
or are among the folded shortcut keys. -/
lemma setFold_mem (l : List (String × SingleKey)) (km : KeyMap) (k : SingleKey)
    (h : kmGet (l.foldl (fun m p => kmSet m p.2 [{ definition := p.1 }]) km) k ≠ none) :
    kmGet km k ≠ none ∨ k ∈ l.map Prod.snd := by
  induction l generalizing km with
  | nil => exact Or.inl h
  | cons p rest ih =>
    rcases ih _ h with h1 | h1
    · by_cases he : k = p.2
      · exact Or.inr (by simp [he])
      · exact Or.inl (by rwa [kmGet_kmSet_ne _ _ _ _ he] at h1)
    · exact Or.inr (by simp [h1])

/-- Frame of `pop_keyboard_mode`: the root mode and the global map are
untouched. -/
lemma pop_frame (s : MappingsState) :
    (pop_keyboard_mode s).2.root_mode = s.root_mode ∧
    (pop_keyboard_mode s).2.global_shortcuts_map = s.global_shortcuts_map := by
  unfold pop_keyboard_mode
  rcases s.keyboard_mode_stack with _ | ⟨m, rest⟩ <;> simp

/-- Frame of `pop_tail`: the root mode and the global map are untouched. -/
lemma pop_tail_frame (s : MappingsState) :
    (pop_tail s).state.root_mode = s.root_mode ∧
    (pop_tail s).state.global_shortcuts_map = s.global_shortcuts_map := by
  have hp := pop_frame s
  unfold pop_tail
  dsimp only
  split <;> simp [hp.1, hp.2]

/-- Frame of the no-candidate branch: the root mode and the global map
are untouched. -/
lemma no_candidates_frame (env : KeyEnv) (s : MappingsState) (mode : KeyboardMode)
    (b : Bool) (ev : KeyEvent) :
    (dispatch_no_candidates env s mode b ev).state.root_mode = s.root_mode ∧
    (dispatch_no_candidates env s mode b ev).state.global_shortcuts_map
      = s.global_shortcuts_map := by
  have hp := pop_frame s
  have hq := pop_tail_frame s
  unfold dispatch_no_candidates
  dsimp only
  repeat' split
  all_goals simp_all

/-- Frame of `dispatch_possible_special_key`: provided the root mode is
not itself mid-chord (its `sequence_keys` is absent, as always holds for
the configured root mode), dispatch never rewrites the root mode or the
global shortcut map — only sequence-mode keymaps and the stack change. -/
lemma dispatch_frame (env : KeyEnv) (s : MappingsState) (ev : KeyEvent)
    (h : s.root_mode.sequence_keys = none) :
    (dispatch_possible_special_key env s ev).state.root_mode = s.root_mode ∧
    (dispatch_possible_special_key env s ev).state.global_shortcuts_map
      = s.global_shortcuts_map := by
  have hnc := fun mode b => no_candidates_frame env s mode b ev
  rcases hst : s.keyboard_mode_stack with _ | ⟨m, rest⟩ <;>
  · unfold dispatch_possible_special_key
    dsimp only
    simp only [hst, active_mode, pop_keyboard_mode]
    repeat' split
    all_goals
      simp_all [push_keyboard_mode_inner, del_entry_mode, replace_active_mode,
        pop_keyboard_mode, hst]

/-- Claim C9: after `update_keymap` (also run at construction) no
SingleKey of the GlobalShortcutMap is a key of the root mode's KeyMap,
and every engine operation — popping and pushing modes (by value or by
name) and `dispatch_possible_special_key` itself, which covers chord
advance and action dispatch — leaves the root keymap and the global map
untouched, hence preserves the disjointness. -/
theorem C9_root_global_disjoint :
    (∀ (s : MappingsState) (opts : OptionsModel) (gs : List (String × SingleKey))
       (k : SingleKey),
       kmGet (update_keymap s opts gs).global_shortcuts_map k ≠ none →
       kmGet (update_keymap s opts gs).root_mode.keymap k = none) ∧
    (∀ (env : KeyEnv) (s : MappingsState) (ev : KeyEvent),
       s.root_mode.sequence_keys = none →
       (dispatch_possible_special_key env s ev).state.root_mode.keymap = s.root_mode.keymap ∧
       (dispatch_possible_special_key env s ev).state.global_shortcuts_map
         = s.global_shortcuts_map) ∧
    (∀ s : MappingsState,
       (pop_keyboard_mode s).2.root_mode.keymap = s.root_mode.keymap ∧
       (pop_keyboard_mode s).2.global_shortcuts_map = s.global_shortcuts_map) ∧
    (∀ (s : MappingsState) (m : KeyboardMode),
       (push_keyboard_mode_inner s m).root_mode.keymap = s.root_mode.keymap ∧
       (push_keyboard_mode_inner s m).global_shortcuts_map = s.global_shortcuts_map) ∧
    (∀ (s : MappingsState) (n : String) (s2 : MappingsState),
       push_keyboard_mode s n = some s2 →
       s2.root_mode.keymap = s.root_mode.keymap ∧
       s2.global_shortcuts_map = s.global_shortcuts_map) ∧
    (∀ (env : KeyEnv) (s : MappingsState) (ev : KeyEvent),
       s.root_mode.sequence_keys = none →
       (∀ k, kmGet s.global_shortcuts_map k ≠ none → kmGet s.root_mode.keymap k = none) →
       ∀ k, kmGet (dispatch_possible_special_key env s ev).state.global_shortcuts_map k ≠ none →
         kmGet (dispatch_possible_special_key env s ev).state.root_mode.keymap k = none) := by
  refine ⟨?_, ?_, ?_, ?_, ?_, ?_⟩
  · intro s opts gs k h
    unfold update_keymap at h ⊢
    rcases setFold_mem gs [] k h with h1 | h1
    · exact absurd rfl h1
    · exact popFold_of_mem gs _ k h1
  · intro env s ev h
    have hf := dispatch_frame env s ev h
    exact ⟨by rw [hf.1], hf.2⟩
  · intro s
    have hp := pop_frame s
    exact ⟨by rw [hp.1], hp.2⟩
  · intro s m
    exact ⟨rfl, rfl⟩
  · intro s n s2 hpush
    unfold push_keyboard_mode at hpush
    dsimp only at hpush
    rcases hfind : (("", s.root_mode) :: s.other_modes).find? (fun p => p.1 = n) with _ | p
    · rw [hfind] at hpush
      simp at hpush
    · rw [hfind] at hpush
      simp only [Option.some.injEq] at hpush
      subst hpush
      exact ⟨rfl, rfl⟩
  · intro env s ev h hdis k hk
    have hf := dispatch_frame env s ev h
    rw [hf.1]
    rw [hf.2] at hk
    exact hdis k hk

/-- Witness for C9: the concrete global shortcut "quit" on ctrl+x is
excluded from the root keymap by `update_keymap`, and a dispatch from the
idle chord state preserves both maps and the disjointness. -/
theorem C9_witness :
    kmGet (update_keymap {} { root_mode := { keymap := [(sk_ctrl_x, [kd_quit])] } }
        [("quit", sk_ctrl_x)]).root_mode.keymap sk_ctrl_x = none ∧
    (dispatch_possible_special_key env_consume root_state ev_ctrl_x).state.root_mode.keymap
      = root_state.root_mode.keymap ∧
    (∀ k, kmGet (dispatch_possible_special_key env_consume root_state ev_ctrl_x).state.global_shortcuts_map k ≠ none →
       kmGet (dispatch_possible_special_key env_consume root_state ev_ctrl_x).state.root_mode.keymap k = none) :=
  ⟨C9_root_global_disjoint.1 {} { root_mode := { keymap := [(sk_ctrl_x, [kd_quit])] } }
     [("quit", sk_ctrl_x)] sk_ctrl_x (by decide),
   (C9_root_global_disjoint.2.1 env_consume root_state ev_ctrl_x rfl).1,
   C9_root_global_disjoint.2.2.2.2.2 env_consume root_state ev_ctrl_x rfl
     (fun k hk => absurd rfl hk)⟩
